import Mathlib

/-!
Shallow embedding of the diagnostics-and-test-result aggregation engine of
the `neodojo` repository, together with proofs about the claims of its
specification.

Modelling conventions:
* Rust `String` / `&str` values are `List Char`, one list element per byte
  (the texts involved are ASCII; code-point and byte positions coincide).
* Rust `u32` / `usize` / `i64` are `Nat` / `Int`, with explicit `% 2^32`
  resp. `% 2^64` wrapping where the machine width matters (release-build
  two's-complement wrapping semantics).
* `Result<T, E>` is `Except E T`; a Rust panic (`unwrap` on `None`, out of
  bounds indexing) is modelled by propagating `none` through `Option`.
-/

/-! ### Basic string machinery (Rust `str::split_once`, `str::contains`) -/

/-- Index of the first occurrence of `pat` inside a list (the position at
which Rust `str::find` / the pattern machinery of `split_once` matches). -/
def findSub (pat : List Char) : List Char → Option Nat
  | [] => if pat.isEmpty then some 0 else none
  | c :: rest =>
    if pat.isPrefixOf (c :: rest) then some 0
    else (findSub pat rest).map (· + 1)

/-- Rust `str::split_once`: split around the first occurrence of `pat`. -/
def splitOnce (pat s : List Char) : Option (List Char × List Char) :=
  (findSub pat s).map (fun i => (s.take i, s.drop (i + pat.length)))

/-- Rust `str::contains` for a literal pattern. -/
def containsSub (pat s : List Char) : Bool :=
  (findSub pat s).isSome

/-- `pat` occurs in `s` starting at index `i`, and at no earlier index:
an implementation-independent description of the first occurrence. -/
def FirstOccurAt (pat s : List Char) (i : Nat) : Prop :=
  pat.isPrefixOf (s.drop i) = true ∧ ∀ j, j < i → pat.isPrefixOf (s.drop j) = false

instance (pat s : List Char) (i : Nat) : Decidable (FirstOccurAt pat s i) := by
  unfold FirstOccurAt
  exact instDecidableAnd

/-! ### Machine-integer helpers -/

/-- `2^32`, the modulus of `u32` arithmetic. -/
def U32 : Nat := 2 ^ 32

/-- `2^64`, the modulus of `usize`/`u64` arithmetic. -/
def U64 : Nat := 2 ^ 64

/-- Wrapping `u32` addition (Rust release-mode `+` on `u32`). -/
def u32add (a b : Nat) : Nat := (a + b) % U32

/-- Rust `i64 as usize` (two's-complement reinterpretation). -/
def asUsize (i : Int) : Nat := (i % (U64 : Int)).toNat

/-- Rust `usize as i64` (two's-complement reinterpretation). -/
def asI64 (n : Nat) : Int := ((n : Int) + 2 ^ 63) % (U64 : Int) - 2 ^ 63

/-- Wrapping `usize` subtraction of `1` (Rust release-mode `x - 1`). -/
def usizeSub1 (x : Nat) : Nat := (x + (U64 - 1)) % U64

/-! ### `src/gunit.rs`: the test-report data model -/

/-- `gunit.rs`: `struct TestFailure`. -/
structure TestFailure where
  failure : List Char
  kind : List Char
deriving DecidableEq

/-- Rust `TestFailure::default()`. -/
def TestFailure.default : TestFailure := ⟨[], []⟩

/-- `gunit.rs`: `enum TestStatus`. -/
inductive TestStatus where
  | Run
  | NotRun
deriving DecidableEq

/-- `gunit.rs`: `struct TestInfo`. -/
structure TestInfo where
  name : List Char
  file : List Char
  line : Nat
  status : TestStatus
  result : List Char
  timestamp : List Char
  time : List Char
  classname : List Char
  failures : List TestFailure
deriving DecidableEq

/-- Rust `TestInfo::default()`. -/
def TestInfo.default : TestInfo :=
  ⟨[], [], 0, .Run, [], [], [], [], []⟩

/-- `gunit.rs`: `struct TestCase` (one suite of the report). -/
structure TestCase where
  name : List Char
  tests : Nat
  failures : Nat
  disabled : Nat
  errors : Nat
  time : List Char
  testsuite : List TestInfo
deriving DecidableEq

/-- Rust `TestCase::default()`. -/
def TestCase.default : TestCase := ⟨[], 0, 0, 0, 0, [], []⟩

/-- `gunit.rs`: `struct UnitTest` (the top-level report). -/
structure UnitTest where
  name : List Char
  tests : Nat
  failures : Nat
  disabled : Nat
  errors : Nat
  timestamp : List Char
  time : List Char
  testsuites : List TestCase
deriving DecidableEq

/-- `gunit.rs`: `enum TestError`. -/
inductive TestError where
  | IoError (msg : List Char)
  | DeserializationError (msg : List Char)
  | ExecutionError (msg : List Char)
  | TestFailed (t : UnitTest)
deriving DecidableEq

/-- `gunit.rs`: `impl TryFrom<TestCase> for UnitTest`: promote a bare suite
into a single-suite report, then fail on its own error/failure counts. -/
def UnitTest.tryFrom (test : TestCase) : Except TestError UnitTest :=
  let t : UnitTest :=
    { testsuites := [test]
      name := test.name
      tests := test.tests
      failures := test.failures
      disabled := test.disabled
      errors := test.errors
      timestamp := []
      time := test.time }
  if t.errors > 0 then
    .error (.ExecutionError [])
  else if t.failures > 0 then
    .error (.TestFailed t)
  else
    .ok t

/-- `gunit.rs`: `UnitTest::add_suite` — purely additive aggregation
(`u32` wrapping addition), the suite is appended unchanged. -/
def UnitTest.add_suite (u : UnitTest) (suite : TestCase) : UnitTest :=
  { u with
    tests := u32add u.tests suite.tests
    failures := u32add u.failures suite.failures
    disabled := u32add u.disabled suite.disabled
    errors := u32add u.errors suite.errors
    testsuites := u.testsuites ++ [suite] }

/-- `gunit.rs`: `UnitTest::has_failed`. -/
def UnitTest.has_failed (u : UnitTest) : Bool :=
  u.failures > 0 || u.errors > 0

/-! ### `src/asan.rs`: the sanitizer-log scanner -/

/-- The three fixed detector categories of `Asan::try_from_file`
(`(key, name)` pairs of the `for` loop). -/
def sanitizerDetectors : List (List Char × List Char) :=
  [("address_sanitizer".data, "AddressSanitizer".data),
   ("undefined_behavior_sanitizer".data, "UndefinedBehaviorSanitizer".data),
   ("leak_sanitizer".data, "LeakSanitizer".data)]

/-- `format!("ERROR: {name}: ")`. -/
def sanitizerMarker (name : List Char) : List Char :=
  "ERROR: ".data ++ name ++ ": ".data

/-- Body of the detector loop in `Asan::try_from_file`: build the
`TestInfo` for one detector from the log text. -/
def sanitizerCase (file : List Char) (kv : List Char × List Char) : TestInfo :=
  let search := sanitizerMarker kv.2
  let message : Option (List Char) :=
    (splitOnce search file).bind
      (fun p => (splitOnce ['\n'] p.2).map (fun q => q.1))
  { TestInfo.default with
    name := kv.1
    classname := "sanitizer".data
    failures :=
      match message with
      | some m => [{ TestFailure.default with failure := m }]
      | none => [] }

/-- The suite built by `Asan::try_from_file` after the detector loop and
the three count assignments (`tests`, `errors`, `failures`; `as u32`
casts are `% 2^32`). -/
def scannedSuite (file : List Char) : TestCase :=
  let suite1 : TestCase :=
    { TestCase.default with
      name := "sanitizer".data
      testsuite := sanitizerDetectors.map (sanitizerCase file) }
  { suite1 with
    tests := suite1.testsuite.length % U32
    errors :=
      if containsSub "DEADLYSIGNAL".data file || containsSub "ABORTING".data file
      then 1 else 0
    failures :=
      (suite1.testsuite.filter (fun info => !info.failures.isEmpty)).length % U32 }

/-- `asan.rs`: `Asan::try_from_file`. The argument is the result of
`std::fs::read_to_string`: `none` when the file cannot be read (the early
`return Ok(suite)` with the still-default suite). -/
def Asan.try_from_file (file : Option (List Char)) : Except TestCase TestCase :=
  match file with
  | none => .ok { TestCase.default with name := "sanitizer".data }
  | some file =>
    let suite := scannedSuite file
    if suite.failures = 0 then .ok suite else .error suite

/-- The suite carried by either side of `Asan::try_from_file`'s result
(`Ok` and `Err` both carry the scanned suite). -/
def sanitizerSuite (r : Except TestCase TestCase) : TestCase :=
  match r with
  | .ok s => s
  | .error s => s

/-! ### `src/cli/test.rs`: result fusion (`exec_test`) -/

/-- `cli/test.rs`: the `match (gunit, asan)` at the end of `exec_test`,
fusing the structured-report probe and the sanitizer probe.  The arms are
in source order; Rust's or-pattern arm is spelled as three arms with the
same right-hand side. -/
def exec_test (gunit : Except TestError UnitTest) (asan : Except TestCase TestCase) :
    Except TestError UnitTest :=
  match gunit, asan with
  | .ok g, .ok a => .ok (g.add_suite a)
  | .ok g, .error a => .error (.TestFailed (g.add_suite a))
  | .error (.TestFailed g), .ok a => .error (.TestFailed (g.add_suite a))
  | .error (.TestFailed g), .error a => .error (.TestFailed (g.add_suite a))
  | _, .error err => UnitTest.tryFrom err
  | .error err, _ => .error err

/-- The structured-report probe outcomes the specification groups as
`ExecutionError`: the report file could not be read or parsed, or the
converted report itself signalled a crash — every error other than
`TestFailed`. -/
def TestError.isCrashLike : TestError → Bool
  | .TestFailed _ => false
  | _ => true

/-! ### `codespan_reporting::files::SimpleFiles` (the file database used by
`src/sarif.rs`), modelled per its published semantics: a growing list of
`(name, source)` pairs, line starts at `0` and after every `'\n'`,
1-based line and column numbers. -/

/-- A `SimpleFiles<String, String>` database: file ids are list indices. -/
abbrev SimpleFiles : Type := List (List Char × List Char)

/-- Byte indices at which lines start, after position `i`. -/
def lineStartsAux : List Char → Nat → List Nat
  | [], _ => []
  | c :: rest, i =>
    if c = '\n' then (i + 1) :: lineStartsAux rest (i + 1)
    else lineStartsAux rest (i + 1)

/-- `codespan`: the `line_starts` table of a source (`0` plus the position
after every `'\n'`). -/
def lineStarts (s : List Char) : List Nat := 0 :: lineStartsAux s 0

/-- `codespan`: `SimpleFile::line_start`: start of line `li` (0-based);
`li` one past the last line maps to the source length, larger is an error. -/
def lineStart (s : List Char) (li : Nat) : Option Nat :=
  let starts := lineStarts s
  if h : li < starts.length then some (starts.get ⟨li, h⟩)
  else if li = starts.length then some s.length
  else none

/-- Source text of file `id`, erroring on an unknown id
(`SimpleFiles::get`). -/
def sourceOf (files : SimpleFiles) (id : Nat) : Option (List Char) :=
  (List.get? files id).map (·.2)

/-- `codespan`: `Files::line_range` on `SimpleFiles`: byte range of line
`li` (including its terminator). -/
def lineRangeF (files : SimpleFiles) (id : Nat) (li : Nat) : Option (Nat × Nat) :=
  (sourceOf files id).bind fun src =>
    (lineStart src li).bind fun a =>
      (lineStart src (li + 1)).map fun b => (a, b)

/-- `codespan`: `Files::line_index`: 0-based line of a byte position
(largest line start that is `≤ byte`; total by `line_starts[0] = 0`). -/
def lineIndexF (src : List Char) (byte : Nat) : Nat :=
  ((lineStarts src).takeWhile (· ≤ byte)).length - 1

/-- `codespan`: `Files::column_number`: 1-based column of `byte` on line
`li` (clamped into the line's byte range; every position of the ASCII
model is a character boundary). -/
def columnNumberF (files : SimpleFiles) (id : Nat) (li : Nat) (byte : Nat) :
    Option Nat :=
  (sourceOf files id).bind fun src =>
    (lineRangeF files id li).map fun ab =>
      min byte (min ab.2 src.length) - ab.1 + 1

/-- `codespan`: `Files::location`: 1-based `(line_number, column_number)`
of a byte position. -/
def locationF (files : SimpleFiles) (id : Nat) (byte : Nat) :
    Option (Nat × Nat) :=
  (sourceOf files id).bind fun src =>
    let li := lineIndexF src byte
    (columnNumberF files id li byte).map fun cn => (li + 1, cn)

/-- `Range::last` of `a..b`. -/
def rangeLast (ab : Nat × Nat) : Option Nat :=
  if ab.1 < ab.2 then some (ab.2 - 1) else none

/-! ### `src/sarif.rs`: byte-range resolution -/

/-- `serde_sarif::sarif::Region`: the six optional `i64` fields used by
`get_byte_range`. -/
structure Region where
  byte_offset : Option Int
  byte_length : Option Int
  start_line : Option Int
  start_column : Option Int
  end_line : Option Int
  end_column : Option Int
deriving DecidableEq

/-- `sarif.rs`: `try_get_byte_offset`: scan the bytes of line `row`
(1-based, converted with `as usize - 1` wrapping) for the first byte whose
1-based column number equals `column`. -/
def try_get_byte_offset (id : Nat) (files : SimpleFiles) (row column : Int) :
    Option Nat :=
  match lineRangeF files id (usizeSub1 (asUsize row)) with
  | none => none
  | some ab =>
    (List.range' ab.1 (ab.2 - ab.1)).find? fun byte =>
      match locationF files id byte with
      | some loc => loc.2 == asUsize column
      | none => false

/-- `sarif.rs`, `get_byte_range`: the first `let byte_offset = ...` block:
an explicit byte offset wins, otherwise the start is derived from
`(start_line, start_column.or(Some(1)))`, and a failed derivation is
absorbed into `None`. -/
def startByteOffset (id : Nat) (files : SimpleFiles) (region : Region) :
    Option Nat :=
  match region.byte_offset with
  | some bo => some (asUsize bo)
  | none =>
    match region.start_line, region.start_column.orElse (fun _ => some 1) with
    | some sl, some sc =>
      match try_get_byte_offset id files sl sc with
      | some b => some b
      | none => none
    | _, _ => none

/-- `sarif.rs`, `get_byte_range`: the fallback computation of the end
column — the 1-based column of the last byte of `end_line` (defaulting to
`start_line`), cast back to `i64`. -/
def lastColumnOf (id : Nat) (files : SimpleFiles) (region : Region) :
    Option Int :=
  (region.end_line.orElse (fun _ => region.start_line)).bind fun start_line =>
    (lineRangeF files id (usizeSub1 (asUsize start_line))).bind fun byte_range =>
      (rangeLast byte_range).bind fun last_byte =>
        (columnNumberF files id (usizeSub1 (asUsize start_line)) last_byte).map
          fun v => asI64 v

/-- `sarif.rs`, `get_byte_range`: the `(end_line, end_column)` pair of the
end derivation: `end_line` defaults to `start_line`, `end_column` defaults
to the last column of that line. -/
def endLineCol (id : Nat) (files : SimpleFiles) (region : Region) :
    Option Int × Option Int :=
  (region.end_line.orElse (fun _ => region.start_line),
   region.end_column.orElse (fun _ => lastColumnOf id files region))

/-- `sarif.rs`, `get_byte_range`: the `let byte_end = ...` block, given a
resolved start `bo`: explicit length wins (wrapping `usize` addition);
otherwise the end is derived from `endLineCol`, and every failure path
falls back to `bo` itself. -/
def endByteOffset (id : Nat) (files : SimpleFiles) (region : Region) (bo : Nat) :
    Option Nat :=
  match region.byte_length with
  | some bl => some ((bo + asUsize bl) % U64)
  | none =>
    match endLineCol id files region with
    | (some el, some ec) =>
      match try_get_byte_offset id files el ec with
      | some e => some e
      | none => some bo
    | _ => some bo

/-- `sarif.rs`: `get_byte_range` — total; unresolved components default to
`0` (`unwrap_or_default`). -/
def get_byte_range (id : Nat) (files : SimpleFiles) (region : Region) :
    Nat × Nat :=
  let byte_offset := startByteOffset id files region
  let byte_end :=
    match byte_offset with
    | some bo => endByteOffset id files region bo
    | none => none
  (byte_offset.getD 0, byte_end.getD 0)

/-! ### `src/sarif.rs`: the `Sarif → BuildDiagnostic` conversion -/

/-- `codespan_reporting::diagnostic::Severity`.  Its published order is
`Bug > Error > Warning > Note > Help`. -/
inductive Severity where
  | Help
  | Note
  | Warning
  | Error
  | Bug
deriving DecidableEq

/-- The `u8` rank realising the `Severity` order of `codespan_reporting`
(`Help = 1`, …, `Bug = 5`). -/
def sevRank : Severity → Nat
  | .Help => 1
  | .Note => 2
  | .Warning => 3
  | .Error => 4
  | .Bug => 5

/-- `codespan_reporting::diagnostic::Diagnostic<usize>` as built by
`sarif.rs`: a severity, a message, and one primary label
`(file_id, byte range, message)`. -/
structure Diagnostic where
  severity : Severity
  message : List Char
  labels : List (Nat × (Nat × Nat) × List Char)
deriving DecidableEq

/-- `serde_sarif`: `ArtifactLocation` (the fields used). -/
structure ArtifactLocation where
  uri : Option (List Char)
  uri_base_id : Option (List Char)
deriving DecidableEq

/-- `serde_sarif`: `ArtifactContent` (the fields used). -/
structure ArtifactContent where
  text : Option (List Char)
deriving DecidableEq

/-- `serde_sarif`: `Artifact` (the fields used). -/
structure Artifact where
  location : Option ArtifactLocation
  contents : Option ArtifactContent
deriving DecidableEq

/-- `serde_sarif`: `PhysicalLocation` (the fields used). -/
structure PhysicalLocation where
  artifact_location : Option ArtifactLocation
  region : Option Region
deriving DecidableEq

/-- `serde_sarif`: `Location` (the fields used). -/
structure SarifLocation where
  physical_location : Option PhysicalLocation
deriving DecidableEq

/-- `serde_sarif`: `Message` (the fields used). -/
structure SarifMessage where
  text : Option (List Char)
deriving DecidableEq

/-- `serde_sarif`: `Result` (the fields used).  `level` is a JSON value:
`some (some s)` is the string `s`, `some none` a non-string value, `none`
an absent field. -/
structure SarifResult where
  level : Option (Option (List Char))
  message : SarifMessage
  locations : Option (List SarifLocation)
deriving DecidableEq

/-- `serde_sarif`: `Run` (the fields used). -/
structure SarifRun where
  artifacts : Option (List Artifact)
  results : Option (List SarifResult)
deriving DecidableEq

/-- `serde_sarif`: `Sarif` (the fields used). -/
structure Sarif where
  runs : List SarifRun
deriving DecidableEq

/-- `sarif.rs`: the per-run artifact registry: the `files_map` hash map
(newest entry first, lookups take the first hit — hash-map overwrite
semantics) together with the `SimpleFiles` database. -/
def registerArtifact
    (acc : Option (List ((List Char × List Char) × Nat) × SimpleFiles))
    (a : Artifact) :
    Option (List ((List Char × List Char) × Nat) × SimpleFiles) :=
  acc.bind fun mf =>
    a.location.bind fun location =>
      location.uri.bind fun name =>
        location.uri_base_id.bind fun parent =>
          a.contents.bind fun contents =>
            contents.text.map fun content =>
              (((parent, name), mf.2.length) :: mf.1, mf.2 ++ [(name, content)])

/-- `sarif.rs`: the artifact-registration loop of
`From<Sarif> for BuildDiagnostic` (a panicking `unwrap` is `none`). -/
def registerArtifacts (arts : List Artifact) :
    Option (List ((List Char × List Char) × Nat) × SimpleFiles) :=
  arts.foldl registerArtifact (some ([], ([] : SimpleFiles)))

/-- `result.level.clone().unwrap_or(Null).as_str().unwrap_or("error")`. -/
def levelString (lv : Option (Option (List Char))) : List Char :=
  match lv with
  | some (some s) => s
  | _ => "error".data

/-- The `match level.as_str()` choosing the diagnostic constructor. -/
def severityOfLevel (s : List Char) : Severity :=
  if s = "error".data then .Error
  else if s = "warning".data then .Warning
  else .Note

/-- `sarif.rs`: the per-finding body of the results loop of
`From<Sarif> for BuildDiagnostic`; every `unwrap` (including the artifact
lookup and the `[0]` index) is an `Option.bind`. -/
def processResult (m : List ((List Char × List Char) × Nat))
    (files : SimpleFiles) (r : SarifResult) : Option Diagnostic :=
  let level := levelString r.level
  r.message.text.bind fun message =>
    r.locations.bind fun locs =>
      locs.head?.bind fun loc0 =>
        loc0.physical_location.bind fun pl =>
          pl.artifact_location.bind fun al =>
            al.uri.bind fun name =>
              al.uri_base_id.bind fun parent =>
                (List.lookup (parent, name) m).bind fun file_id =>
                  pl.region.map fun region =>
                    let range := get_byte_range file_id files region
                    { severity := severityOfLevel level
                      message := message
                      labels := [(file_id, range, message)] }

/-- A `for` loop pushing one `Option`-producing step per element onto a
vector, where a `none` is a panic aborting the loop. -/
def mapMOpt {α β : Type} (f : α → Option β) : List α → Option (List β)
  | [] => some []
  | x :: xs => (f x).bind fun y => (mapMOpt f xs).map fun ys => y :: ys

/-- `sarif.rs`: one iteration of the outer `for run in &sarif.runs` loop:
register the run's artifacts, then extract its diagnostics in order. -/
def processRun (run : SarifRun) : Option (SimpleFiles × List Diagnostic) :=
  run.artifacts.bind fun arts =>
    (registerArtifacts arts).bind fun mf =>
      run.results.bind fun results =>
        (mapMOpt (processResult mf.1 mf.2) results).map fun ds => (mf.2, ds)

/-- `sarif.rs`: `struct BuildDiagnostic`: per-run file databases with the
run's diagnostics. -/
structure BuildDiagnostic where
  runs : List (SimpleFiles × List Diagnostic)
deriving DecidableEq

/-- `sarif.rs`: `impl From<Sarif> for BuildDiagnostic`; a `none` is a
panic of one of the `unwrap`s, which aborts the whole conversion. -/
def BuildDiagnostic.fromSarif (s : Sarif) : Option BuildDiagnostic :=
  (mapMOpt processRun s.runs).map BuildDiagnostic.mk

/-- `sarif.rs`: `BuildDiagnostic::has_errors`. -/
def BuildDiagnostic.has_errors (bd : BuildDiagnostic) : Bool :=
  bd.runs.any fun p => p.2.any fun d => d.severity == Severity.Error

/-- The comparator of `pretty_print`'s `sort_by`:
`a.severity.partial_cmp(&b.severity).unwrap()`, i.e. the `Severity`
order. -/
def diagLE (a b : Diagnostic) : Bool :=
  decide (sevRank a.severity ≤ sevRank b.severity)

/-- `sarif.rs`, `BuildDiagnostic::pretty_print`: the order in which one
run's diagnostics are emitted — a clone of the stored list, stably sorted
by severity (`Vec::sort_by` is a stable sort). -/
def pretty_print_order (ds : List Diagnostic) : List Diagnostic :=
  ds.mergeSort diagLE

/-- `sarif.rs`, `BuildDiagnostic::pretty_print`: the emitted runs, in
stored order; the stored `BuildDiagnostic` itself is left untouched (the
sort operates on a clone). -/
def BuildDiagnostic.renderedRuns (bd : BuildDiagnostic) :
    List (List Diagnostic) :=
  bd.runs.map fun p => pretty_print_order p.2

deriving instance DecidableEq for Except

/-! ### Concrete inputs used by individual claims -/

/-- The sanitizer-log text of the specification's AddressSanitizer
example. -/
def c7input : List Char :=
  "ERROR: AddressSanitizer: heap-buffer-overflow on address 0xdead\nREAD of size 4...".data

/-- The file content of the specification's region-resolution example. -/
def content8 : List Char := "line1\nline22\nline333\n".data

/-- A one-file `SimpleFiles` database holding `content8`. -/
def files8 : SimpleFiles := [("f".data, content8)]

/-- The region descriptor `startLine=2, startColumn=1, endLine=2`,
`endColumn` absent, of the region-resolution example. -/
def region8 : Region := ⟨none, none, some 2, some 1, some 2, none⟩

/-- A sanitizer log whose scan is a `Failure` outcome (one leak finding,
no crash markers). -/
def c1log : List Char := "ERROR: LeakSanitizer: detected memory leaks\n".data

/-- The failing sanitizer suite scanned from `c1log`. -/
def c1suite : TestCase := scannedSuite c1log

/-- The report `UnitTest::try_from` builds out of `c1suite` alone. -/
def c1promoted : UnitTest :=
  { name := "sanitizer".data, tests := 3, failures := 1, disabled := 0,
    errors := 0, timestamp := [], time := [], testsuites := [c1suite] }

/-- An artifact location registered by the claim-C4 runs. -/
def c4loc : ArtifactLocation := ⟨some "a.c".data, some "SRC".data⟩

/-- An artifact location that no artifact of the claim-C4 runs declares. -/
def c4locBad : ArtifactLocation := ⟨some "missing.c".data, some "SRC".data⟩

/-- A region descriptor with an explicit byte offset and length. -/
def c4region : Region := ⟨some 0, some 3, none, none, none, none⟩

/-- The single artifact of the claim-C4 runs. -/
def c4art : Artifact := ⟨some c4loc, some ⟨some "int x;\n".data⟩⟩

/-- A finding that resolves against the registered artifact. -/
def c4resGood : SarifResult :=
  ⟨some (some "warning".data), ⟨some "msg".data⟩,
   some [⟨some ⟨some c4loc, some c4region⟩⟩]⟩

/-- A finding referencing the unregistered artifact `missing.c`. -/
def c4resBad : SarifResult :=
  ⟨some (some "warning".data), ⟨some "msg".data⟩,
   some [⟨some ⟨some c4locBad, some c4region⟩⟩]⟩

/-- A run whose single finding resolves. -/
def c4runGood : SarifRun := ⟨some [c4art], some [c4resGood]⟩

/-- A run whose single finding references an unregistered artifact. -/
def c4runBad : SarifRun := ⟨some [c4art], some [c4resBad]⟩

/-- Witness input for claim C5: a two-line file. -/
def c5files : SimpleFiles := [("f".data, "ab\ncd".data)]

/-- Witness region for claim C5: resolvable start `(2, 1)`, no byte
length, unresolvable end line `99`. -/
def c5region : Region := ⟨none, none, some 2, some 1, some 99, some 1⟩

/-- Witness log for claim C10: a marker at the start of the text with no
later line break. -/
def c10file : List Char := "ERROR: LeakSanitizer: detected leaks".data

/-- Witness diagnostics for claim C9: two equal-severity diagnostics. -/
def c9a : Diagnostic := ⟨.Warning, "first".data, []⟩

/-- Second witness diagnostic for claim C9 (same severity as `c9a`). -/
def c9b : Diagnostic := ⟨.Warning, "second".data, []⟩

/-- A third witness diagnostic for claim C9 of a higher severity. -/
def c9c : Diagnostic := ⟨.Error, "third".data, []⟩

/-- The witness run for claim C9, as stored in a `BuildDiagnostic`. -/
def c9bd : BuildDiagnostic := ⟨[([], [c9c, c9a, c9b])]⟩

/-- Witness report and suites for claim C3. -/
def c3u : UnitTest :=
  { name := "r".data, tests := 1, failures := 0, disabled := 0, errors := 0,
    timestamp := [], time := [], testsuites := [] }

/-- First appended suite of the claim-C3 witness. -/
def c3s1 : TestCase := { TestCase.default with name := "a".data, tests := 10, failures := 2 }

/-- Second appended suite of the claim-C3 witness. -/
def c3s2 : TestCase := { TestCase.default with name := "b".data, tests := 5, disabled := 1, errors := 3 }

/-! ## Helper lemmas -/

/-- Both branches of `Asan::try_from_file`'s final `if` carry the scanned
suite. -/
theorem sanitizerSuite_scan (file : List Char) :
    sanitizerSuite (Asan.try_from_file (some file)) = scannedSuite file := by
  by_cases h : (scannedSuite file).failures = 0 <;>
    simp [Asan.try_from_file, sanitizerSuite, h]

/-- A pattern that does not occur cannot be split on. -/
theorem splitOnce_eq_none (pat s : List Char) (h : containsSub pat s = false) :
    splitOnce pat s = none := by
  unfold containsSub at h
  unfold splitOnce
  cases hf : findSub pat s
  · rfl
  · rw [hf] at h
    simp at h

/-! ## Claim C2 -/

/-- Claim C2, counterexample: when the sanitizer-log file is absent, the
scan indeed returns a successful suite, but its `tests` count is `0`, not
`3`: the early `return Ok(suite)` fires before `suite.tests` is
assigned. -/
theorem missing_sanitizer_log_counterexample :
    Asan.try_from_file none = .ok { TestCase.default with name := "sanitizer".data } ∧
    (sanitizerSuite (Asan.try_from_file none)).tests = 0 ∧
    (sanitizerSuite (Asan.try_from_file none)).tests ≠ 3 := by
  decide

/-- Claim C2, amended: when the sanitizer-log file is absent (cannot be
read), the sanitizer scan returns a successful suite whose counts are
`tests == 0`, `failures == 0`, `errors == 0`, with no cases. -/
theorem missing_sanitizer_log_empty_suite :
    Asan.try_from_file none = .ok { TestCase.default with name := "sanitizer".data } ∧
    (sanitizerSuite (Asan.try_from_file none)).tests = 0 ∧
    (sanitizerSuite (Asan.try_from_file none)).failures = 0 ∧
    (sanitizerSuite (Asan.try_from_file none)).errors = 0 ∧
    (sanitizerSuite (Asan.try_from_file none)).testsuite = [] := by
  decide

/-! ## Claim C7 -/

/-- Claim C7: on the log text
`"ERROR: AddressSanitizer: heap-buffer-overflow on address 0xdead\nREAD of size 4..."`
the scan produces an AddressSanitizer case with exactly one failure whose
message is `"heap-buffer-overflow on address 0xdead"`, and the suite has
`failures == 1` and `tests == 3`. -/
theorem sanitizer_scan_asan_example :
    (sanitizerSuite (Asan.try_from_file (some c7input))).tests = 3 ∧
    (sanitizerSuite (Asan.try_from_file (some c7input))).failures = 1 ∧
    (sanitizerSuite (Asan.try_from_file (some c7input))).testsuite.map
        (fun i => (i.name, i.failures.map TestFailure.failure)) =
      [("address_sanitizer".data, ["heap-buffer-overflow on address 0xdead".data]),
       ("undefined_behavior_sanitizer".data, []),
       ("leak_sanitizer".data, [])] := by
  decide

/-! ## Claim C8 -/

/-- Claim C8: against `"line1\nline22\nline333\n"`, position
`(line=2, column=1)` resolves to byte offset `6`, and the region
`startLine=2, startColumn=1, endLine=2` with `endColumn` absent resolves
to the byte range `6..12`, exactly the second line `"line22"` without its
terminator (which sits at byte `12`). -/
theorem region_resolution_example :
    try_get_byte_offset 0 files8 2 1 = some 6 ∧
    get_byte_range 0 files8 region8 = (6, 12) ∧
    (content8.drop 6).take (12 - 6) = "line22".data ∧
    content8.get? 12 = some '\n' := by
  decide

/-! ## Claim C3 -/

/-- Claim C3: for every initial report and finite sequence of `add_suite`
calls (whose running totals stay within `u32`), each of the four totals
equals its initial value plus the elementwise sum over the appended
suites, and the suites are appended unchanged, in call order, at the end
of the suite list. -/
theorem add_suite_additive (u : UnitTest) (suites : List TestCase)
    (ht : u.tests + (suites.map TestCase.tests).sum < U32)
    (hf : u.failures + (suites.map TestCase.failures).sum < U32)
    (hd : u.disabled + (suites.map TestCase.disabled).sum < U32)
    (he : u.errors + (suites.map TestCase.errors).sum < U32) :
    (suites.foldl UnitTest.add_suite u).tests
        = u.tests + (suites.map TestCase.tests).sum ∧
    (suites.foldl UnitTest.add_suite u).failures
        = u.failures + (suites.map TestCase.failures).sum ∧
    (suites.foldl UnitTest.add_suite u).disabled
        = u.disabled + (suites.map TestCase.disabled).sum ∧
    (suites.foldl UnitTest.add_suite u).errors
        = u.errors + (suites.map TestCase.errors).sum ∧
    (suites.foldl UnitTest.add_suite u).testsuites = u.testsuites ++ suites := by
  induction suites generalizing u with
  | nil => simp
  | cons s rest ih =>
    simp only [List.map_cons, List.sum_cons] at ht hf hd he
    have h1 : u.tests + s.tests < U32 := by omega
    have h2 : u.failures + s.failures < U32 := by omega
    have h3 : u.disabled + s.disabled < U32 := by omega
    have h4 : u.errors + s.errors < U32 := by omega
    have e : UnitTest.add_suite u s =
        { u with
          tests := u.tests + s.tests
          failures := u.failures + s.failures
          disabled := u.disabled + s.disabled
          errors := u.errors + s.errors
          testsuites := u.testsuites ++ [s] } := by
      simp only [UnitTest.add_suite, u32add]
      rw [Nat.mod_eq_of_lt h1, Nat.mod_eq_of_lt h2, Nat.mod_eq_of_lt h3,
        Nat.mod_eq_of_lt h4]
    obtain ⟨t1, t2, t3, t4, t5⟩ :=
      ih (UnitTest.add_suite u s) (by rw [e]; simp; omega) (by rw [e]; simp; omega)
        (by rw [e]; simp; omega) (by rw [e]; simp; omega)
    rw [List.foldl_cons] at *
    refine ⟨?_, ?_, ?_, ?_, ?_⟩
    · rw [t1, e]; simp; omega
    · rw [t2, e]; simp; omega
    · rw [t3, e]; simp; omega
    · rw [t4, e]; simp; omega
    · rw [t5, e]; simp

/-- Claim C3, witness: the additivity theorem applied to a concrete
report and two concrete suites. -/
theorem add_suite_additive_witness :
    ([c3s1, c3s2].foldl UnitTest.add_suite c3u).tests
        = c3u.tests + ([c3s1, c3s2].map TestCase.tests).sum ∧
    ([c3s1, c3s2].foldl UnitTest.add_suite c3u).failures
        = c3u.failures + ([c3s1, c3s2].map TestCase.failures).sum ∧
    ([c3s1, c3s2].foldl UnitTest.add_suite c3u).disabled
        = c3u.disabled + ([c3s1, c3s2].map TestCase.disabled).sum ∧
    ([c3s1, c3s2].foldl UnitTest.add_suite c3u).errors
        = c3u.errors + ([c3s1, c3s2].map TestCase.errors).sum ∧
    ([c3s1, c3s2].foldl UnitTest.add_suite c3u).testsuites
        = c3u.testsuites ++ [c3s1, c3s2] :=
  add_suite_additive c3u [c3s1, c3s2] (by decide) (by decide) (by decide)
    (by decide)

/-! ## Claim C1 -/

/-- Claim C1, counterexample: the structured-report probe cannot read the
report file (`IoError`), the sanitizer probe is a `Failure` (the real
scan of `c1log`), yet the final outcome is `TestFailed` — not an
execution error — and it carries the sanitizer suite instead of
discarding it. -/
theorem fusion_exec_error_counterexample :
    Asan.try_from_file (some c1log) = .error c1suite ∧
    exec_test (.error (.IoError "io".data)) (.error c1suite) =
      .error (.TestFailed c1promoted) ∧
    TestError.isCrashLike (.TestFailed c1promoted) = false ∧
    c1promoted.testsuites = [c1suite] := by
  decide

/-- Claim C1, amended: when the structured-report probe yields an
execution-error-like outcome (unreadable or unparsable report), the
sanitizer result decides the shape of the final outcome.  If the
sanitizer probe is `Success`, the report-probe error is returned and the
sanitizer result discarded; if it is `Failure`, the suite is promoted via
`TryFrom<TestCase>`: `ExecutionError` when the suite carries `errors > 0`,
otherwise `TestFailed` on (or `Success` with) a report holding exactly the
sanitizer suite. -/
theorem fusion_exec_error_amended (e : TestError) (a : TestCase)
    (he : e.isCrashLike = true) :
    exec_test (.error e) (.ok a) = .error e ∧
    exec_test (.error e) (.error a) =
      (if a.errors > 0 then .error (.ExecutionError [])
       else if a.failures > 0 then
         .error (.TestFailed
           { name := a.name, tests := a.tests, failures := a.failures,
             disabled := a.disabled, errors := a.errors, timestamp := [],
             time := a.time, testsuites := [a] })
       else .ok
           { name := a.name, tests := a.tests, failures := a.failures,
             disabled := a.disabled, errors := a.errors, timestamp := [],
             time := a.time, testsuites := [a] }) := by
  cases e with
  | IoError m => exact ⟨rfl, rfl⟩
  | DeserializationError m => exact ⟨rfl, rfl⟩
  | ExecutionError m => exact ⟨rfl, rfl⟩
  | TestFailed t => simp [TestError.isCrashLike] at he

/-- Claim C1, witness: the amended fusion rule applied at a concrete
unparsable-report outcome and a successful sanitizer probe. -/
theorem fusion_exec_error_amended_witness :
    exec_test (.error (.DeserializationError [])) (.ok TestCase.default) =
      .error (.DeserializationError []) :=
  (fusion_exec_error_amended (.DeserializationError []) TestCase.default rfl).1

/-- `findSub` finds exactly the first occurrence of a pattern. -/
theorem findSub_of_firstOccurAt (pat s : List Char) (i : Nat)
    (h : FirstOccurAt pat s i) : findSub pat s = some i := by
  induction s generalizing i with
  | nil =>
    obtain ⟨h1, h2⟩ := h
    rw [List.drop_nil] at h1
    have hpat : pat = [] := by
      cases pat with
      | nil => rfl
      | cons a as => simp [List.isPrefixOf] at h1
    subst hpat
    have hi : i = 0 := by
      by_contra hne
      have := h2 0 (Nat.pos_of_ne_zero hne)
      simp [List.isPrefixOf] at this
    subst hi
    simp [findSub]
  | cons c rest ih =>
    obtain ⟨h1, h2⟩ := h
    by_cases hp : pat.isPrefixOf (c :: rest) = true
    · have hi : i = 0 := by
        by_contra hne
        have h0 := h2 0 (Nat.pos_of_ne_zero hne)
        rw [List.drop_zero] at h0
        rw [h0] at hp
        exact Bool.false_ne_true hp
      subst hi
      simp [findSub, hp]
    · have hi : i ≠ 0 := by
        intro hi0
        subst hi0
        rw [List.drop_zero] at h1
        exact hp h1
      obtain ⟨i', rfl⟩ : ∃ i', i = i' + 1 := ⟨i - 1, by omega⟩
      have hrec : FirstOccurAt pat rest i' := by
        constructor
        · simpa using h1
        · intro j hj
          have := h2 (j + 1) (by omega)
          simpa using this
      simp only [findSub]
      rw [if_neg hp, ih i' hrec]
      rfl

/-- Splitting at the first `'\n'`: the left part is the longest
newline-free front of the text, and the split fails exactly when the text
has no newline. -/
theorem splitOnce_newline (rest : List Char) :
    (splitOnce ['\n'] rest).map (fun q => q.1) =
      (if '\n' ∈ rest then some (rest.takeWhile (fun c => !(c == '\n'))) else none) := by
  induction rest with
  | nil => simp [splitOnce, findSub]
  | cons c r ih =>
    by_cases hc : c = '\n'
    · subst hc
      have hpre : (['\n'] : List Char).isPrefixOf ('\n' :: r) = true := by
        simp [List.isPrefixOf]
      simp [splitOnce, findSub, hpre, List.takeWhile_cons]
    · have hp : (['\n'] : List Char).isPrefixOf (c :: r) = false := by
        simp only [List.isPrefixOf, Bool.and_eq_false_iff]
        left
        simp [Ne.symm hc]
      cases hf : findSub ['\n'] r with
      | none =>
        have hmem : ¬ ('\n' ∈ r) := by
          intro hm
          rw [splitOnce, hf] at ih
          simp [hm] at ih
        simp [splitOnce, findSub, hp, hf, hmem, hc, Ne.symm hc]
      | some k =>
        have h1 : '\n' ∈ r ∧ r.take k = r.takeWhile (fun c => !(c == '\n')) := by
          rw [splitOnce, hf] at ih
          by_cases hm : '\n' ∈ r
          · simp [hm] at ih
            exact ⟨hm, ih⟩
          · simp [hm] at ih
        simp [splitOnce, findSub, hp, hf, List.takeWhile_cons, hc, h1.1, ← h1.2,
          List.take_succ_cons]

/-! ## Claim C6 -/

/-- Claim C6: for every successfully read log text the scan emits exactly
3 cases (`tests == 3`), one per fixed detector category; `failures`
always equals the number of cases with a non-empty failure list; and on
text free of every scanned marker (the three detector markers and the two
crash indicators) the suite has `failures == 0` and `errors == 0`. -/
theorem sanitizer_scan_shape (file : List Char) :
    (sanitizerSuite (Asan.try_from_file (some file))).testsuite.length = 3 ∧
    (sanitizerSuite (Asan.try_from_file (some file))).tests = 3 ∧
    (sanitizerSuite (Asan.try_from_file (some file))).testsuite.map TestInfo.name =
      ["address_sanitizer".data, "undefined_behavior_sanitizer".data,
       "leak_sanitizer".data] ∧
    (sanitizerSuite (Asan.try_from_file (some file))).failures =
      ((sanitizerSuite (Asan.try_from_file (some file))).testsuite.filter
        (fun info => !info.failures.isEmpty)).length ∧
    (containsSub (sanitizerMarker "AddressSanitizer".data) file = false →
     containsSub (sanitizerMarker "UndefinedBehaviorSanitizer".data) file = false →
     containsSub (sanitizerMarker "LeakSanitizer".data) file = false →
     containsSub "DEADLYSIGNAL".data file = false →
     containsSub "ABORTING".data file = false →
     (sanitizerSuite (Asan.try_from_file (some file))).failures = 0 ∧
     (sanitizerSuite (Asan.try_from_file (some file))).errors = 0) := by
  rw [sanitizerSuite_scan]
  refine ⟨?_, ?_, ?_, ?_, ?_⟩
  · simp [scannedSuite, sanitizerDetectors]
  · simp [scannedSuite, sanitizerDetectors]
    decide
  · simp [scannedSuite, sanitizerDetectors, sanitizerCase]
  · have hle : ((sanitizerDetectors.map (sanitizerCase file)).filter
        (fun info => !info.failures.isEmpty)).length ≤ 3 := by
      have h := List.length_filter_le (fun info => !info.failures.isEmpty)
        (sanitizerDetectors.map (sanitizerCase file))
      simpa [sanitizerDetectors] using h
    have hU : (3 : Nat) < U32 := by decide
    simp only [scannedSuite]
    exact Nat.mod_eq_of_lt (by omega)
  · intro ha hu hl hd habort
    refine ⟨?_, ?_⟩
    · simp [scannedSuite, sanitizerDetectors, sanitizerCase,
        splitOnce_eq_none _ _ ha, splitOnce_eq_none _ _ hu,
        splitOnce_eq_none _ _ hl]
    · simp [scannedSuite, hd, habort]

/-! ## Claim C10 -/

/-- Claim C10: every detector case records at most one failure; and the
failure of a detector case is determined by the first occurrence of that
detector's marker — the remainder after the first marker occurrence up to
the next line break, or no failure at all when no line break follows the
marker. -/
theorem sanitizer_first_marker (file : List Char) :
    (sanitizerSuite (Asan.try_from_file (some file))).testsuite =
      sanitizerDetectors.map (sanitizerCase file) ∧
    (∀ info ∈ (sanitizerSuite (Asan.try_from_file (some file))).testsuite,
      info.failures.length ≤ 1) ∧
    (∀ kv ∈ sanitizerDetectors, ∀ i, FirstOccurAt (sanitizerMarker kv.2) file i →
      (sanitizerCase file kv).failures =
        (if '\n' ∈ file.drop (i + (sanitizerMarker kv.2).length)
         then [{ TestFailure.default with
                 failure := (file.drop (i + (sanitizerMarker kv.2).length)).takeWhile
                   (fun c => !(c == '\n')) }]
         else [])) := by
  refine ⟨by rw [sanitizerSuite_scan]; rfl, ?_, ?_⟩
  · intro info hmem
    rw [sanitizerSuite_scan] at hmem
    have hm : info ∈ sanitizerDetectors.map (sanitizerCase file) := hmem
    obtain ⟨kv, _, rfl⟩ := List.mem_map.mp hm
    simp only [sanitizerCase]
    cases h : (splitOnce (sanitizerMarker kv.2) file).bind
        (fun p => (splitOnce ['\n'] p.2).map (fun q => q.1)) <;>
      simp [h]
  · intro kv _ i hfo
    have hfind : findSub (sanitizerMarker kv.2) file = some i :=
      findSub_of_firstOccurAt _ _ _ hfo
    have hsplit : splitOnce (sanitizerMarker kv.2) file =
        some (file.take i, file.drop (i + (sanitizerMarker kv.2).length)) := by
      rw [splitOnce, hfind]
      rfl
    simp only [sanitizerCase, hsplit, Option.some_bind]
    rw [splitOnce_newline]
    by_cases hm : '\n' ∈ file.drop (i + (sanitizerMarker kv.2).length) <;>
      simp [hm]

/-- Claim C10, witness: a marker at the very start of the text with no
later line break produces a passing detector case. -/
theorem sanitizer_first_marker_witness :
    (sanitizerCase c10file ("leak_sanitizer".data, "LeakSanitizer".data)).failures
      = [] := by
  have h := (sanitizer_first_marker c10file).2.2
    ("leak_sanitizer".data, "LeakSanitizer".data) (by decide) 0 (by decide)
  rw [h]
  decide

/-! ## Claim C5 -/

/-- Claim C5: region construction is total for every region descriptor
and file database.  When the start cannot be resolved (no usable offset
or line, or a failed derivation), the result is the empty region
`(0, 0)`; when the start resolves to `s` it is the range's first
component, and when additionally no byte length is given and the end
derivation fails, the result is the zero-width region `(s, s)`. -/
theorem region_fallback (id : Nat) (files : SimpleFiles) (region : Region) :
    (startByteOffset id files region = none →
      get_byte_range id files region = (0, 0)) ∧
    (∀ s, startByteOffset id files region = some s →
      (get_byte_range id files region).1 = s ∧
      (region.byte_length = none →
        (match endLineCol id files region with
         | (some el, some ec) => try_get_byte_offset id files el ec = none
         | _ => True) →
        get_byte_range id files region = (s, s))) := by
  constructor
  · intro h
    simp [get_byte_range, h]
  · intro s hs
    constructor
    · simp [get_byte_range, hs]
    · intro hbl hend
      have hEnd : endByteOffset id files region s = some s := by
        simp only [endByteOffset, hbl]
        cases hec : endLineCol id files region with
        | mk el ec =>
          cases el with
          | none => rfl
          | some el' =>
            cases ec with
            | none => rfl
            | some ec' =>
              rw [hec] at hend
              show (match try_get_byte_offset id files el' ec' with
                | some e => some e
                | none => some s) = some s
              rw [hend]
      simp [get_byte_range, hs, hEnd]

/-- Claim C5, witness: the fallback theorem applied at a region with no
location data at all (empty region), and at a region whose start resolves
but whose end line does not exist (zero-width region). -/
theorem region_fallback_witness :
    get_byte_range 0 ([] : SimpleFiles) ⟨none, none, none, none, none, none⟩ = (0, 0) ∧
    get_byte_range 0 c5files c5region = (3, 3) := by
  refine ⟨?_, ?_⟩
  · exact (region_fallback 0 [] ⟨none, none, none, none, none, none⟩).1 (by decide)
  · exact ((region_fallback 0 c5files c5region).2 3 (by decide)).2 rfl
      (show try_get_byte_offset 0 c5files 99 1 = none by decide)

/-! ## Claim C4 -/

/-- If one element of a list maps to `none`, the whole loop panics. -/
theorem optionMapM_eq_none {α β : Type} (f : α → Option β) (l : List α) (a : α)
    (ha : a ∈ l) (hf : f a = none) : mapMOpt f l = none := by
  induction l with
  | nil => cases ha
  | cons x xs ih =>
    rw [mapMOpt]
    rcases List.mem_cons.mp ha with rfl | hmem
    · rw [hf]
      rfl
    · cases hx : f x with
      | none => rfl
      | some v => simp [ih hmem]

/-- Claim C4, counterexample: two runs over the same artifact set; the
first run's finding resolves, the second references the unregistered
`missing.c`.  Alone, the good run converts; together with the bad run the
whole conversion aborts (the `unwrap` on the failed artifact lookup
panics), so the bad finding does not abort "only that run's
extraction". -/
theorem unresolved_artifact_counterexample :
    (BuildDiagnostic.fromSarif ⟨[c4runGood]⟩).isSome = true ∧
    (processRun c4runGood).isSome = true ∧
    processRun c4runBad = none ∧
    BuildDiagnostic.fromSarif ⟨[c4runGood, c4runBad]⟩ = none := by
  decide

/-- Claim C4, amended: a finding whose artifact reference is not
registered in the per-run namespace makes the artifact lookup fail, which
panics and aborts the whole `Sarif → BuildDiagnostic` conversion — the
offending run's extraction, every other run's extraction, and the caller
receive nothing. -/
theorem unresolved_artifact_aborts_conversion
    (pre post : List SarifRun) (run : SarifRun)
    (arts : List Artifact) (m : List ((List Char × List Char) × Nat))
    (files : SimpleFiles) (results : List SarifResult) (r : SarifResult)
    (msg : List Char) (locs : List SarifLocation) (loc0 : SarifLocation)
    (pl : PhysicalLocation) (al : ArtifactLocation)
    (name parent : List Char)
    (harts : run.artifacts = some arts)
    (hreg : registerArtifacts arts = some (m, files))
    (hres : run.results = some results)
    (hr : r ∈ results)
    (hmsg : r.message.text = some msg)
    (hlocs : r.locations = some locs)
    (hloc0 : locs.head? = some loc0)
    (hpl : loc0.physical_location = some pl)
    (hal : pl.artifact_location = some al)
    (hname : al.uri = some name)
    (hparent : al.uri_base_id = some parent)
    (hlookup : List.lookup (parent, name) m = none) :
    processResult m files r = none ∧
    processRun run = none ∧
    BuildDiagnostic.fromSarif ⟨pre ++ run :: post⟩ = none := by
  have h1 : processResult m files r = none := by
    simp [processResult, hmsg, hlocs, hloc0, hpl, hal, hname, hparent, hlookup]
  have h2 : processRun run = none := by
    simp [processRun, harts, hreg, hres,
      optionMapM_eq_none (processResult m files) results r hr h1]
  refine ⟨h1, h2, ?_⟩
  simp [BuildDiagnostic.fromSarif,
    optionMapM_eq_none processRun (pre ++ run :: post) run (by simp) h2]

/-- Claim C4, witness: the abort theorem applied to the concrete bad run,
with the healthy run in front of it. -/
theorem unresolved_artifact_aborts_conversion_witness :
    BuildDiagnostic.fromSarif ⟨[c4runGood, c4runBad]⟩ = none :=
  (unresolved_artifact_aborts_conversion [c4runGood] [] c4runBad
    [c4art] [(("SRC".data, "a.c".data), 0)] [("a.c".data, "int x;\n".data)]
    [c4resBad] c4resBad "msg".data [⟨some ⟨some c4locBad, some c4region⟩⟩]
    ⟨some ⟨some c4locBad, some c4region⟩⟩ ⟨some c4locBad, some c4region⟩
    c4locBad "missing.c".data "SRC".data
    rfl (by decide) rfl (by decide) rfl rfl rfl rfl rfl rfl rfl
    (by decide)).2.2

/-! ## Claim C9 -/

/-- The rendering comparator is transitive. -/
theorem diagLE_trans (a b c : Diagnostic) (hab : diagLE a b) (hbc : diagLE b c) :
    diagLE a c := by
  simp [diagLE] at *
  omega

/-- The rendering comparator is total. -/
theorem diagLE_total (a b : Diagnostic) : diagLE a b || diagLE b a := by
  simp [diagLE]
  omega

/-- Claim C9: each stored run is rendered (without mutating the store) in
ascending-severity order — `Note` before `Warning` before `Error` per the
`Severity` rank — the rendered list is a permutation of the stored one,
and any two equal-severity diagnostics keep their relative insertion
order. -/
theorem render_order_sorted (bd : BuildDiagnostic) (fs : SimpleFiles)
    (ds : List Diagnostic) (h : (fs, ds) ∈ bd.runs) :
    pretty_print_order ds ∈ bd.renderedRuns ∧
    (pretty_print_order ds).Pairwise
      (fun a b => sevRank a.severity ≤ sevRank b.severity) ∧
    List.Perm (pretty_print_order ds) ds ∧
    (∀ a b : Diagnostic, sevRank a.severity = sevRank b.severity →
      List.Sublist [a, b] ds → List.Sublist [a, b] (pretty_print_order ds)) := by
  refine ⟨?_, ?_, ?_, ?_⟩
  · exact List.mem_map_of_mem (fun p => pretty_print_order p.2) h
  · have hs := List.sorted_mergeSort diagLE_trans diagLE_total ds
    exact hs.imp fun hab => by simpa [diagLE] using hab
  · exact List.mergeSort_perm ds diagLE
  · intro a b hab hsub
    exact List.pair_sublist_mergeSort diagLE_trans diagLE_total
      (by simp [diagLE, hab]) hsub

/-- Claim C9, witness: in a concrete stored run, two equal-severity
diagnostics keep their insertion order in the rendered output. -/
theorem render_order_sorted_witness :
    pretty_print_order [c9c, c9a, c9b] ∈ c9bd.renderedRuns ∧
    List.Sublist [c9a, c9b] (pretty_print_order [c9c, c9a, c9b]) := by
  have h := render_order_sorted c9bd [] [c9c, c9a, c9b] (by decide)
  exact ⟨h.1, h.2.2.2 c9a c9b rfl
    (List.Sublist.cons c9c (List.Sublist.refl [c9a, c9b]))⟩

/-- Claim C6, witness: the shape theorem's marker-free clause applied to
the empty log text. -/
theorem sanitizer_scan_shape_witness :
    (sanitizerSuite (Asan.try_from_file (some "".data))).failures = 0 ∧
    (sanitizerSuite (Asan.try_from_file (some "".data))).errors = 0 :=
  (sanitizer_scan_shape "".data).2.2.2.2 (by decide) (by decide) (by decide)
    (by decide) (by decide)
